import Mathlib

/-!
Verification development for the iocost-benchmarks-ci repository.

The Rust sources are shallowly embedded: pure decision logic becomes Lean
functions; subprocess invocations, network downloads, the filesystem and
environment variables become explicit oracle parameters; Rust panics and
anyhow errors become explicit constructors of result types.
-/

namespace IocostCI

/-! ### String helpers modelling Rust str operations

Rust's str::starts_with / str::ends_with / str::replace(char, str) operate on
the character sequence; we model strings through their character lists.
-/

/-- Models Rust str::starts_with. -/
def strStartsWith (s p : String) : Bool := p.data.isPrefixOf s.data

/-- Models Rust str::ends_with. -/
def strEndsWith (s p : String) : Bool := p.data.isSuffixOf s.data

/-- Models Rust str::replace with a single-char pattern and single-char
replacement, as in the sources. -/
def replaceChar (s : String) (c r : Char) : String :=
  String.mk (s.data.map (fun a => if a == c then r else a))

/-- Lexicographic character-list comparison, modelling Rust Ord for String
(byte-lexicographic on the UTF-8 encoding; identical on the character level
for the strings at play). -/
def charListLe : List Char → List Char → Bool
  | [], _ => true
  | _ :: _, [] => false
  | a :: as, b :: bs =>
    if a.toNat < b.toNat then true
    else if b.toNat < a.toNat then false
    else charListLe as bs

/-- String comparison used by the firmware-revision maximum. -/
def strLe (a b : String) : Bool := charListLe a.data b.data

/-- Models Rust Iterator::max_by / max_by_key: among several maximal elements
the last one is returned, hence the fold replaces the accumulator whenever the
new element is greater or equal. -/
def maxByLast {α : Type} (le : α → α → Bool) (l : List α) : Option α :=
  l.foldl (fun acc x => match acc with
    | none => some x
    | some b => if le b x then some x else some b) none

/-! ### import-results.rs: URL allow-listing and `get_urls` -/

/-- The fixed allow-list of trusted URL origins (import-results.rs). -/
def ALLOWED_PREFIXES : List String :=
  ["https://github.com/",
   "https://iocost-submit-us-east-1.s3.us-east-1.amazonaws.com/"]

/-- Models fn is_url_allowlisted of import-results.rs: true iff the link
starts with one of the fixed allowed origins. -/
def is_url_allowlisted (link : String) : Bool :=
  ALLOWED_PREFIXES.any (fun p => strStartsWith link p)

/-- The full URL filter applied by get_urls to each link found in the body:
allow-listed origin and the expected result-file extension. -/
def url_accepted (link : String) : Bool :=
  is_url_allowlisted link && strEndsWith link ".json.gz"

/-- The fields of the GitHub workflow context that get_urls reads.
The links the linkify crate finds in a body are modelled by a
link-finding oracle passed separately. -/
structure WorkflowContext where
  issue_locked : Bool
  issue_state : String
  event_name : String
  action : String
  comment_body : Option String
  issue_body : Option String

/-- Result of get_urls: the function can panic (locked or non-open issue,
or a missing body), bail with an error (unhandled event kind), or return
the filtered URL list. -/
inductive GetUrls where
  | panic : GetUrls
  | err : GetUrls
  | ok : List String → GetUrls
deriving DecidableEq, Repr

/-- The body get_urls reads, by event action: comment body for created,
issue body for opened, and for edited whichever the event name selects;
outer none models the bail on an unhandled action, inner none a missing
body (whose .expect panics). -/
def get_body (ctx : WorkflowContext) : Option (Option String) :=
  match ctx.action with
  | "created" => some ctx.comment_body
  | "opened" => some ctx.issue_body
  | "edited" => some (if ctx.event_name == "issue_comment" then
      ctx.comment_body else ctx.issue_body)
  | _ => none

/-- Models fn get_urls of import-results.rs. `linkfind` stands for the
linkify crate's LinkFinder over the chosen body text. -/
def get_urls (linkfind : String → List String) (ctx : WorkflowContext) : GetUrls :=
  if ctx.issue_locked || ctx.issue_state != "open" then
    .panic
  else
    match get_body ctx with
    | none => .err
    | some none => .panic
    | some (some body) =>
      .ok ((linkfind body).filter url_accepted)

/-! ### import-results.rs: the ingestion loop of `run_as_gh_workflow` -/

/-- External collaborators of the ingestion loop, keyed by URL:
`fetch` stands for BenchResult::new_from_issue (download, write to disk,
decompress, parse, extract metadata) yielding the stored path or an error;
`validate` stands for BenchResult::validate (external engine dry run);
`store` stands for BenchResult::add_to_database (pdf + rename + metadata). -/
structure IngestOracle where
  fetch : String → Except String String
  validate : String → Except String Unit
  store : String → Except String Unit

/-- Trace of the ingestion loop: which URLs had a download initiated, which
were validated, which were stored, the accumulated validation-error strings,
and whether the loop aborted early (the error value propagated by `?`). -/
structure RunTrace where
  downloads : List String
  validations : List String
  stored : List String
  errors : List String
  aborted : Option String
deriving DecidableEq, Repr

/-- Models the `for url in urls` loop of run_as_gh_workflow: a fetch or store
failure propagates with `?` and aborts the loop; a validation failure pushes
an error string and continues with the next URL. -/
def ingest_loop (o : IngestOracle) : List String → RunTrace
  | [] => ⟨[], [], [], [], none⟩
  | url :: rest =>
    match o.fetch url with
    | .error e => ⟨[url], [], [], [], some e⟩
    | .ok _path =>
      match o.validate url with
      | .error e =>
        let t := ingest_loop o rest
        ⟨url :: t.downloads, url :: t.validations, t.stored,
          ("File " ++ url ++ " failed validation: \n\n" ++ e) :: t.errors,
          t.aborted⟩
      | .ok _ =>
        match o.store url with
        | .error e => ⟨[url], [url], [], [], some e⟩
        | .ok _ =>
          let t := ingest_loop o rest
          ⟨url :: t.downloads, url :: t.validations, url :: t.stored,
            t.errors, t.aborted⟩

/-- Overall outcome of run_as_gh_workflow. -/
inductive RunOutcome where
  | panic : RunOutcome
  | err : RunOutcome
  | ok : RunOutcome
deriving DecidableEq, Repr

/-- Result of run_as_gh_workflow: the ingestion trace, the aggregated comment
posted to the issue (if any), and the outcome. -/
structure RunResult where
  trace : RunTrace
  comment : Option String
  outcome : RunOutcome
deriving DecidableEq, Repr

/-- Models fn run_as_gh_workflow of import-results.rs: extract URLs with
get_urls, run the ingestion loop, and post one aggregated comment exactly
when the error list is non-empty (an abort propagates before the comment is
posted). -/
def run_as_gh_workflow (linkfind : String → List String) (o : IngestOracle)
    (ctx : WorkflowContext) : RunResult :=
  match get_urls linkfind ctx with
  | .panic => ⟨⟨[], [], [], [], none⟩, none, .panic⟩
  | .err => ⟨⟨[], [], [], [], none⟩, none, .err⟩
  | .ok urls =>
    let t := ingest_loop o urls
    match t.aborted with
    | some _ => ⟨t, none, .err⟩
    | none =>
      if t.errors.isEmpty then ⟨t, none, .ok⟩
      else ⟨t, some (String.intercalate "\n\n" t.errors), .ok⟩

/-! ### github_actions.rs: `process_submission` -/

/-- Issue state as deserialized in github_actions.rs. -/
inductive IssueState where
  | openState : IssueState
  | closedState : IssueState
  | unimplemented : IssueState
deriving DecidableEq, Repr

/-- Issue event action as deserialized in github_actions.rs. -/
inductive IssueEventAction where
  | opened | edited | deleted | closedAct | reopened | lockedAct | unimplemented
deriving DecidableEq, Repr

/-- The issue data process_submission reads. -/
structure Issue where
  id : Nat
  body : String
  locked : Bool
  state : IssueState
deriving DecidableEq, Repr

/-- The event data process_submission reads. -/
structure IssueEvent where
  action : IssueEventAction
  issue : Issue
deriving DecidableEq, Repr

/-- The single trusted URL origin used in process_submission. -/
def GH_FILES : String := "https://github.com/iocost-benchmark/benchmarks/files/"

instance {ε α : Type} [DecidableEq ε] [DecidableEq α] :
    DecidableEq (Except ε α) := fun a b =>
  match a, b with
  | .ok x, .ok y =>
    if h : x = y then .isTrue (by rw [h]) else .isFalse (by simp [h])
  | .error x, .error y =>
    if h : x = y then .isTrue (by rw [h]) else .isFalse (by simp [h])
  | .ok _, .error _ => .isFalse (by simp)
  | .error _, .ok _ => .isFalse (by simp)

/-- Trace of process_submission: downloads initiated, whether the greeting
comment was posted, and the returned value (ok or the error text). -/
structure SubTrace where
  downloads : List String
  comment_posted : Bool
  result : Except String Unit
deriving DecidableEq, Repr

/-- Models the `for link in LinkFinder::new().links(...)` loop of
process_submission: a link that fails the origin or extension check makes the
whole function return an error (no download of that link); otherwise the link
is downloaded (a failing download propagates with `?`). -/
def submission_loop (fetch : String → Except String Unit) :
    List String → SubTrace
  | [] => ⟨[], true, .ok ()⟩
  | url :: rest =>
    if !strStartsWith url GH_FILES then
      ⟨[], false, .error "The file must be uploaded to the GitHub issue"⟩
    else if !strEndsWith url ".json.gz" then
      ⟨[], false, .error "The file type must be json.gz"⟩
    else
      match fetch url with
      | .error e => ⟨[url], false, .error e⟩
      | .ok _ =>
        let t := submission_loop fetch rest
        ⟨url :: t.downloads, t.comment_posted, t.result⟩

/-- Models fn process_submission of github_actions.rs: a closed or locked
issue returns Ok immediately with no downloads and no comment; an unexpected
action errors; otherwise every link of the body is checked and downloaded and
the greeting comment is posted at the end. -/
def process_submission (linkfind : String → List String)
    (fetch : String → Except String Unit) (event : IssueEvent) : SubTrace :=
  if event.issue.state != IssueState.openState then ⟨[], false, .ok ()⟩
  else if event.issue.locked then ⟨[], false, .ok ()⟩
  else
    match event.action with
    | .opened | .edited => submission_loop fetch (linkfind event.issue.body)
    | _ => ⟨[], false, .error "submission type not implemented"⟩

/-! ### common.rs: firmware-merge decision of `BenchMerge::try_fwmerge` -/

/-- const MINIMUM_DATA_POINTS of common.rs. -/
def MINIMUM_DATA_POINTS : Nat := 4

/-- const MINIMUM_DIFFERENT_RESULTS of common.rs. -/
def MINIMUM_DIFFERENT_RESULTS : Nat := 1

/-- pub struct BenchFWMerge of common.rs. -/
structure BenchFWMerge where
  fwrev : String
  path : String
  data_points : Nat
deriving DecidableEq, Repr

/-- Outcome of the keep-or-discard step at the end of try_fwmerge. -/
inductive FWDecision where
  /-- The candidate is kept and returned as Some(BenchFWMerge). -/
  | keep : BenchFWMerge → FWDecision
  /-- The candidate's output file is removed and None is returned. -/
  | deleteAndNone : String → FWDecision
deriving DecidableEq, Repr

/-- Rust `(data_points as i64 - common_data_points as i64).unsigned_abs()`. -/
def dp_divergence (data_points common_data_points : Nat) : Nat :=
  ((data_points : Int) - (common_data_points : Int)).natAbs

/-- Models the decision at the end of try_fwmerge (common.rs lines 136-164):
keep the firmware-specific candidate iff its data-point count diverges from
the bucket-wide count by at least MINIMUM_DIFFERENT_RESULTS and reaches
MINIMUM_DATA_POINTS; otherwise delete its output file and return None. -/
def fwmerge_decide (common_data_points : Nat) (fwrev output_path : String)
    (data_points : Nat) : FWDecision :=
  if dp_divergence data_points common_data_points ≥ MINIMUM_DIFFERENT_RESULTS
      && data_points ≥ MINIMUM_DATA_POINTS then
    .keep ⟨fwrev, output_path, data_points⟩
  else
    .deleteAndNone output_path

/-! ### common.rs: `try_fwmerge` and `merge` with an empty bucket -/

/-- Result of a computation that may panic (Rust unwrap/expect), return an
error (anyhow Result::Err) or produce a value. -/
inductive RustResult (α : Type) where
  | panic : RustResult α
  | err : String → RustResult α
  | ok : α → RustResult α
deriving DecidableEq, Repr

/-- External collaborators of BenchMerge::merge / try_fwmerge:
`fwrev_of` stands for loading a result file and reading its
scr_dev_fwrev field; `run_merge` stands for the external engine's merge
invocation writing the given output path; `get_data_points` stands for
reading the merged file back and counting data plus outliers. -/
structure MergeOracle where
  fwrev_of : String → String
  run_merge : String → List String → Except String String
  get_data_points : String → Except String Nat

/-- Models fn merged_file of common.rs (the fixed output path). -/
def merged_file (version model_name : String) (detail : Option String) : String :=
  let d := match detail with
  | some d => d ++ "-"
  | none => ""
  "merged-results/" ++ version ++ "-" ++ model_name ++ "-" ++ d
    ++ "merged-results.json.gz"

/-- Models fn database_directory of common.rs. -/
def database_directory (version model_name : String) : String :=
  "database/" ++ version ++ "/" ++ model_name

/-- Models fn BenchMerge::try_fwmerge of common.rs over the list of result
paths found in the bucket directory: group by firmware revision, take the
revision with the lexicographically greatest string (`.max_by(...).unwrap()`
panics on an empty bucket), merge that revision's files, and apply the
keep-or-discard decision. -/
def try_fwmerge (o : MergeOracle) (common_data_points : Nat)
    (version model_name : String) (results : List String) :
    RustResult (Option BenchFWMerge) :=
  match maxByLast strLe (results.map o.fwrev_of) with
  | none => .panic
  | some max_fwrev =>
    let output_path := merged_file version model_name (some max_fwrev)
    let rev_files := results.filter (fun r => o.fwrev_of r == max_fwrev)
    match o.run_merge output_path rev_files with
    | .error e => .err e
    | .ok _ =>
      match o.get_data_points output_path with
      | .error e => .err e
      | .ok data_points =>
        match fwmerge_decide common_data_points max_fwrev output_path
            data_points with
        | .keep m => .ok (some m)
        | .deleteAndNone _ => .ok none

/-- Models fn BenchMerge::merge of common.rs, with the bucket directory's
result files supplied as a list: merge the whole bucket, read the data-point
count back, then run the firmware refinement. The resulting value records
version string, model name, output path, data points and the optional
firmware merge. -/
def bench_merge (o : MergeOracle) (version model_name : String)
    (results : List String) :
    RustResult (String × String × String × Nat × Option BenchFWMerge) :=
  let output_path := merged_file version model_name none
  match o.run_merge output_path results with
  | .error e => .err e
  | .ok _ =>
    match o.get_data_points output_path with
    | .error e => .err e
    | .ok data_points =>
      match try_fwmerge o data_points version model_name results with
      | .panic => .panic
      | .err e => .err e
      | .ok fwmerge =>
        .ok (version, model_name, output_path, data_points, fwmerge)

/-! ### import-results.rs: the high-level-summary version gate -/

/-- A parsed semantic version as held by BenchVersion::semver: the
major.minor.patch triple and the pre-release identifier list ([] meaning
no pre-release component). -/
structure Semver where
  major : Nat
  minor : Nat
  patch : Nat
  pre : List String
deriving DecidableEq, Repr

/-- Semver precedence below the plain release version `a.b.c`: the triple is
lexicographically smaller, or the triple is equal and the version carries a
pre-release component (a pre-release precedes its release). -/
def semver_below (v : Semver) (a b c : Nat) : Bool :=
  (decide (v.major < a)) ||
  (v.major == a && decide (v.minor < b)) ||
  (v.major == a && v.minor == b && decide (v.patch < c)) ||
  (v.major == a && v.minor == b && v.patch == c && !v.pre.isEmpty)

/-- Models semver::VersionReq::parse("<a.b.c").matches(v) for a bare
upper-bound comparator with no pre-release component: a version carrying a
pre-release matches only if some comparator has the identical triple together
with a pre-release, which a bare comparator never has — behaviour the source
itself documents at create_hwdb_in ("We use -0 here so that pre-released
versions from git are also considered to match"). -/
def versionreq_lt_matches (a b c : Nat) (v : Semver) : Bool :=
  v.pre.isEmpty &&
    ((decide (v.major < a)) ||
     (v.major == a && decide (v.minor < b)) ||
     (v.major == a && v.minor == b && decide (v.patch < c)))

/-- Trace of HighLevel::format_high_level: whether the merge and the
formatting invocation of the external engine were issued, and the returned
summary string (none models the panic of the two .expect calls). -/
structure HLTrace where
  merge_invoked : Bool
  format_invoked : Bool
  result : Option String
deriving DecidableEq, Repr

/-- Models fn HighLevel::format_high_level of import-results.rs: if the
engine's reported version matches VersionReq "<2.2.3" the empty string is
returned with no engine invocation; otherwise the merge and the formatting
run ('merge_result' and 'format_result' stand for the two external
invocations, whose failure panics via .expect). -/
def format_high_level (v : Semver) (merge_result : Except String Unit)
    (format_result : Except String String) : HLTrace :=
  if versionreq_lt_matches 2 2 3 v then ⟨false, false, some ""⟩
  else
    match merge_result with
    | .error _ => ⟨true, false, none⟩
    | .ok _ =>
      match format_result with
      | .error _ => ⟨true, true, none⟩
      | .ok s => ⟨true, true, some s⟩

/-! ### merge-results.rs: per-model selection and final hwdb emission -/

/-- The data of one merge alternative for a model, as used by the selection
pass of merge-results.rs. -/
structure MergeAlt where
  version_str : String
  model_name : String
  data_points : Nat
deriving DecidableEq, Repr

/-- Models fn BenchMerge::build_descriptive_filename (common.rs) with detail
None: the formatted current date is passed in as `date`. -/
def build_descriptive_filename (m : MergeAlt) (date : String)
    (extension : String) : String :=
  let ext := if extension == "" then "" else "." ++ extension
  "iocost-tune-" ++ m.version_str ++ "-" ++ m.model_name ++ "-" ++ date ++ ext

/-- The override environment variable consulted for a model in
merge-results.rs: OVERRIDE_BEST_ followed by the model name with all dashes
replaced by underscores. -/
def override_var (model : String) : String :=
  "OVERRIDE_BEST_" ++ replaceChar model '-' '_'

/-- Result of std::env::var as matched in merge-results.rs. -/
inductive EnvVal where
  | notPresent : EnvVal
  | notUnicode : EnvVal
  | ok : String → EnvVal
deriving DecidableEq, Repr

/-- Models the per-model selection of merge-results.rs main (lines 86-108):
an override naming an existing file is selected unconditionally; an override
naming a missing file panics; NotUnicode panics; with no override the
alternative with the greatest data-point count wins (last one on ties, per
Iterator::max_by_key), its filename rebuilt via build_descriptive_filename.
`none` models a panic. -/
def select_best (env : String → EnvVal) (file_exists : String → Bool)
    (date : String) (model : String) (alternatives : List MergeAlt) :
    Option String :=
  match env (override_var model) with
  | .notPresent =>
    (maxByLast (fun a b => a.data_points ≤ b.data_points) alternatives).map
      (fun m => build_descriptive_filename m date "hwdb")
  | .notUnicode => none
  | .ok best => if file_exists best then some best else none

/-- Models fn write_hwdb_file_header of merge-results.rs (the writeln adds a
trailing newline to the formatted text). -/
def hwdb_file_header (date commit_id : String) : String :=
  "# This file is auto-generated on " ++ date ++ ".\n"
    ++ "# From the following commit:\n"
    ++ "# https://github.com/iocost-benchmark/iocost-benchmarks/commit/"
    ++ commit_id ++ "\n"
    ++ "#\n"
    ++ "# Match key format:\n"
    ++ "# block:<devpath>:name:<model name>:fwrev:<firmware revision>:\n"
    ++ "\n"

/-- Models the `for model in models` emission loop of merge-results.rs main:
for each model of the aggregation map, in the map's iteration order, select
the best snippet and append the contents of hwdb-inputs/<best> plus a
newline. `read_file` stands for fs::read_to_string; `none` models a panic. -/
def emit_models (env : String → EnvVal) (file_exists : String → Bool)
    (read_file : String → String) (date : String) :
    List (String × List MergeAlt) → Option String
  | [] => some ""
  | (model, alternatives) :: rest =>
    match select_best env file_exists date model alternatives with
    | none => none
    | some best =>
      match emit_models env file_exists read_file date rest with
      | none => none
      | some s => some (read_file ("hwdb-inputs/" ++ best) ++ "\n" ++ s)

/-- Models the output-file generation of merge-results.rs main: the header
followed by the per-model emission pass over the aggregation map's entries in
iteration order. The entries list stands for the DashMap's iteration
sequence, whose order the map does not specify. -/
def aggregator_output (env : String → EnvVal) (file_exists : String → Bool)
    (read_file : String → String) (date commit_id : String)
    (entries : List (String × List MergeAlt)) : Option String :=
  match emit_models env file_exists read_file date entries with
  | none => none
  | some body => some (hwdb_file_header date commit_id ++ body)

/-! ### import-results.rs: content-addressed storage (`download_url`,
`new_from_issue`, `add_to_database`) -/

/-- Models fn BenchResult::download_url of import-results.rs: the stored
file name is result-<hex md5 digest>.json.gz, a function of the downloaded
bytes alone. `digest` stands for format("{:x}", md5::compute(contents)). -/
def download_path (digest : List Nat → String) (contents : List Nat) :
    String :=
  "result-" ++ digest contents ++ ".json.gz"

/-- The two JSON fields new_from_issue extracts from a result file. -/
structure ParsedMeta where
  full_version : String
  scr_dev_model : String
deriving DecidableEq, Repr

/-- The fields of BenchResult relevant to storage paths. -/
structure BenchResult where
  issue : Option Nat
  url : Option String
  model_name : String
  dir : String
  result_file : String
  version : String
deriving DecidableEq, Repr

/-- Models fn BenchResult::new_from_issue of import-results.rs: download the
bytes to a content-addressed path, parse the archive ('extract' stands for
load_json plus field navigation), parse the version with semver and truncate
to major.minor, normalize the model name, and derive the database directory.
Parse failures propagate as errors. -/
def new_from_issue (digest : List Nat → String)
    (extract : List Nat → Option ParsedMeta)
    (semver_parse : String → Option Semver)
    (issue : Nat) (url : String) (database_path : String)
    (contents : List Nat) : Option BenchResult :=
  let path := download_path digest contents
  match extract contents with
  | none => none
  | some meta =>
    match semver_parse meta.full_version with
    | none => none
    | some v =>
      let version := toString v.major ++ "." ++ toString v.minor
      let model_name := replaceChar meta.scr_dev_model ' ' '_'
      some
        { issue := some issue
          url := some url
          model_name := model_name
          dir := database_path ++ "/" ++ version ++ "/" ++ model_name
          result_file := path
          version := version }

/-- The final database path used by BenchResult::add_to_database:
self.dir joined with self.result_file. -/
def db_file (r : BenchResult) : String := r.dir ++ "/" ++ r.result_file

/-! ### Refinement rendering used by the aggregation-override comparison -/

/-- Rendering of the override key as the spec words it ("keyed by the model
name with non-alphanumeric characters replaced"), to be compared against
override_var, which is translated from merge-results.rs. -/
def override_var_claim (model : String) : String :=
  "OVERRIDE_BEST_" ++
    String.mk (model.data.map (fun c => if c.isAlphanum then c else '_'))

/-! ### Concrete contexts and oracles used as evaluation inputs -/

/-- An allow-listed result URL. -/
def good_url : String := "https://github.com/a.json.gz"

/-- A second allow-listed result URL. -/
def good_url2 : String := "https://github.com/b.json.gz"

/-- A URL outside the allow-list. -/
def bad_url : String := "http://evil.com/b.json.gz"

/-- Link finder yielding one accepted and one rejected URL for body BODY. -/
def lf_mixed (body : String) : List String :=
  if body == "BODY" then [good_url, bad_url] else []

/-- Link finder yielding two accepted URLs for body BODY. -/
def lf_twogood (body : String) : List String :=
  if body == "BODY" then [good_url, good_url2] else []

/-- A workflow context for an open, unlocked issue. -/
def ctx_open : WorkflowContext :=
  ⟨false, "open", "issues", "opened", none, some "BODY"⟩

/-- A workflow context for a locked issue. -/
def ctx_locked : WorkflowContext :=
  ⟨true, "open", "issues", "opened", none, some "BODY"⟩

/-- An ingestion oracle on which every external operation succeeds. -/
def ok_oracle : IngestOracle :=
  ⟨fun _ => .ok "stored", fun _ => .ok (), fun _ => .ok ()⟩

/-- An ingestion oracle whose download of good_url fails. -/
def fail_fetch_oracle : IngestOracle :=
  ⟨fun u => if u == good_url then .error "connection reset" else .ok "stored",
   fun _ => .ok (), fun _ => .ok ()⟩

/-- An ingestion oracle on which validation of good_url fails. -/
def fail_validate_oracle : IngestOracle :=
  ⟨fun _ => .ok "stored",
   fun u => if u == good_url then .error "bad file" else .ok (),
   fun _ => .ok ()⟩

/-- An event for an open, unlocked issue with body BODY. -/
def ev_open : IssueEvent := ⟨.opened, ⟨1, "BODY", false, .openState⟩⟩

/-- An event for a locked issue. -/
def ev_locked : IssueEvent := ⟨.opened, ⟨1, "BODY", true, .openState⟩⟩

/-- A download oracle for process_submission on which every fetch succeeds. -/
def fetch_ok : String → Except String Unit := fun _ => .ok ()

/-- A merge oracle: one firmware revision, merging succeeds, the merged file
holds 5 data points. -/
def merge_oracle5 : MergeOracle :=
  ⟨fun _ => "FW1", fun _ _ => .ok "", fun _ => .ok 5⟩

/-- A merge oracle on which every external operation succeeds trivially. -/
def merge_oracle0 : MergeOracle :=
  ⟨fun _ => "", fun _ _ => .ok "", fun _ => .ok 0⟩

/-- Aggregation environment holding no override variables. -/
def env_none : String → EnvVal := fun _ => .notPresent

/-- Aggregation environment that sets the variable the spec wording would
consult for model A.B, mapping it to the snippet x.hwdb. -/
def env_claimkey : String → EnvVal :=
  fun k => if k == "OVERRIDE_BEST_A_B" then .ok "x.hwdb" else .notPresent

/-- File-existence oracle on which exactly x.hwdb exists. -/
def fe_x : String → Bool := fun f => f == "x.hwdb"

/-- The single 10-point alternative of model A.B. -/
def alts_ab : List MergeAlt := [⟨"2.2", "A.B", 10⟩]

/-- The three alternatives of the data-point selection scenario. -/
def alts_scenario : List MergeAlt :=
  [⟨"2.2", "Foo_Bar", 10⟩, ⟨"2.3", "Foo_Bar", 25⟩, ⟨"2.4", "Foo_Bar", 3⟩]

/-- One alternative for model a. -/
def alt_a : MergeAlt := ⟨"2.2", "a", 3⟩

/-- One alternative for model b. -/
def alt_b : MergeAlt := ⟨"2.2", "b", 5⟩

/-- The aggregation map's entries iterated in unsorted order. -/
def entries_rev : List (String × List MergeAlt) :=
  [("b", [alt_b]), ("a", [alt_a])]

/-- The same aggregation map's entries iterated in sorted order. -/
def entries_sorted : List (String × List MergeAlt) :=
  [("a", [alt_a]), ("b", [alt_b])]

/-- Snippet store holding distinct contents for the two models' snippets. -/
def read_ab : String → String := fun p =>
  if p == "hwdb-inputs/iocost-tune-2.2-a-D.hwdb" then "AAA"
  else if p == "hwdb-inputs/iocost-tune-2.2-b-D.hwdb" then "BBB"
  else ""

/-- A digest function standing in for the md5 hex digest. -/
def digest0 (b : List Nat) : String :=
  toString (b.foldl (fun a x => a + x) 0)

/-- A metadata extraction oracle returning fixed fields. -/
def extract0 (_ : List Nat) : Option ParsedMeta := some ⟨"2.2.3", "Model X"⟩

/-- A semver parsing oracle recognising 2.2.3. -/
def sp0 (s : String) : Option Semver :=
  if s == "2.2.3" then some ⟨2, 2, 3, []⟩ else none

/-- Concatenation of a list of strings, used to state the shape of the
emitted hwdb body. -/
def concat_all : List String → String
  | [] => ""
  | s :: rest => s ++ concat_all rest

/-! ## Helper lemmas -/

theorem strStartsWith_trans {s p q : String}
    (h1 : strStartsWith s p = true) (h2 : strStartsWith p q = true) :
    strStartsWith s q = true := by
  simp only [strStartsWith, List.isPrefixOf_iff_prefix] at h1 h2 ⊢
  exact h2.trans h1

/-- Every URL the workflow's get_urls returns passed the allow-list and
extension filter. -/
theorem get_urls_sound {linkfind : String → List String}
    {ctx : WorkflowContext} {urls : List String}
    (h : get_urls linkfind ctx = .ok urls) :
    ∀ u ∈ urls, url_accepted u = true := by
  unfold get_urls at h
  split at h
  · exact absurd h (by simp)
  · split at h
    · exact absurd h (by simp)
    · exact absurd h (by simp)
    · injection h with h
      subst h
      intro u hu
      exact (List.mem_filter.mp hu).2

/-- Every URL on which the ingestion loop initiates a download is one of the
URLs it was handed. -/
theorem ingest_loop_downloads_sub (o : IngestOracle) (urls : List String) :
    ∀ d ∈ (ingest_loop o urls).downloads, d ∈ urls := by
  induction urls with
  | nil => intro d hd; exact absurd hd (by simp [ingest_loop])
  | cons url rest ih =>
    intro d hd
    unfold ingest_loop at hd
    rcases hfetch : o.fetch url with e | p <;> rw [hfetch] at hd
    · simp only [RunTrace.downloads] at hd
      simp [List.mem_singleton.mp hd]
    · rcases hval : o.validate url with e | v <;> rw [hval] at hd
      · simp only [RunTrace.downloads, List.mem_cons] at hd
        rcases hd with hd | hd
        · simp [hd]
        · exact List.mem_cons_of_mem _ (ih d hd)
      · rcases hst : o.store url with e | s <;> rw [hst] at hd
        · simp only [RunTrace.downloads] at hd
          simp [List.mem_singleton.mp hd]
        · simp only [RunTrace.downloads, List.mem_cons] at hd
          rcases hd with hd | hd
          · simp [hd]
          · exact List.mem_cons_of_mem _ (ih d hd)

/-- Every URL process_submission downloads carries the trusted origin and the
expected extension. -/
theorem submission_loop_downloads_ok (fetch : String → Except String Unit)
    (urls : List String) :
    ∀ d ∈ (submission_loop fetch urls).downloads,
      strStartsWith d GH_FILES = true ∧ strEndsWith d ".json.gz" = true := by
  induction urls with
  | nil => intro d hd; exact absurd hd (by simp [submission_loop])
  | cons url rest ih =>
    intro d hd
    unfold submission_loop at hd
    split at hd
    · exact absurd hd (by simp)
    · split at hd
      · exact absurd hd (by simp)
      · rename_i hpre hext
        rcases hfetch : fetch url with e | v <;> rw [hfetch] at hd
        · simp only [SubTrace.downloads] at hd
          rw [List.mem_singleton.mp hd]
          constructor
          · simpa using hpre
          · simpa using hext
        · simp only [SubTrace.downloads, List.mem_cons] at hd
          rcases hd with hd | hd
          · subst hd
            constructor
            · simpa using hpre
            · simpa using hext
          · exact ih d hd

/-- The element maxByLast returns bounds every key of the list, provided the
Boolean comparison reflects the key order. -/
theorem maxByLast_bound {α : Type} (le : α → α → Bool) (key : α → Nat)
    (hle : ∀ a c, (le a c = true → key a ≤ key c) ∧
      (le a c = false → key c ≤ key a)) :
    ∀ (l : List α) (acc : Option α) (b : α),
      List.foldl (fun acc x => match acc with
        | none => some x
        | some c => if le c x then some x else some c) acc l = some b →
      (∀ a, acc = some a → key a ≤ key b) ∧ ∀ x ∈ l, key x ≤ key b := by
  intro l
  induction l with
  | nil =>
    intro acc b h
    simp only [List.foldl_nil] at h
    refine ⟨fun a ha => ?_, fun x hx => absurd hx (List.not_mem_nil x)⟩
    rw [ha] at h
    injection h with h
    exact h ▸ Nat.le_refl _
  | cons x l ih =>
    intro acc b h
    simp only [List.foldl_cons] at h
    cases acc with
    | none =>
      have hres := ih (some x) b h
      refine ⟨fun a ha => absurd ha (by simp), fun y hy => ?_⟩
      rcases List.mem_cons.mp hy with rfl | hy
      · exact hres.1 y rfl
      · exact hres.2 y hy
    | some c =>
      cases hc : le c x with
      | true =>
        simp only [hc, if_true] at h
        have hres := ih (some x) b h
        refine ⟨fun a ha => ?_, fun y hy => ?_⟩
        · cases ha
          exact Nat.le_trans ((hle c x).1 hc) (hres.1 x rfl)
        · rcases List.mem_cons.mp hy with rfl | hy
          · exact hres.1 y rfl
          · exact hres.2 y hy
      | false =>
        simp only [hc, if_false] at h
        have hres := ih (some c) b h
        refine ⟨fun a ha => ?_, fun y hy => ?_⟩
        · cases ha
          exact hres.1 c rfl
        · rcases List.mem_cons.mp hy with rfl | hy
          · exact Nat.le_trans ((hle c y).2 hc) (hres.1 c rfl)
          · exact hres.2 y hy

/-- The alternative the data-point selection returns has the greatest
data-point count among the alternatives. -/
theorem maxByLast_data_points_bound (alts : List MergeAlt) (b : MergeAlt)
    (h : maxByLast (fun a c => a.data_points ≤ c.data_points) alts = some b) :
    ∀ x ∈ alts, x.data_points ≤ b.data_points := by
  unfold maxByLast at h
  exact (maxByLast_bound (fun a c => a.data_points ≤ c.data_points)
    (fun m => m.data_points)
    (fun a c => ⟨fun hb => by simpa using hb,
      fun hb => le_of_not_le (by simpa using hb)⟩)
    alts none b h).2

/-- An URL with the trusted process_submission origin is allow-listed. -/
theorem gh_files_allowlisted {u : String}
    (h : strStartsWith u GH_FILES = true) : is_url_allowlisted u = true := by
  have hgh : strStartsWith GH_FILES "https://github.com/" = true := by decide
  have := strStartsWith_trans h hgh
  simp [is_url_allowlisted, ALLOWED_PREFIXES, this]

/-! ## Claim theorems -/

/-- Claim C1: every URL found in a submission body that fails the allow-list
prefix check or does not end in the expected extension is rejected without the
download operation ever being invoked on it — both in the import-results
workflow (get_urls filter, then the ingestion loop) and in the
github_actions submission handler. -/
theorem C1_filter_runs_before_fetch (lf : String → List String)
    (o : IngestOracle) (fetch : String → Except String Unit)
    (ctx : WorkflowContext) (ev : IssueEvent) (link : String)
    (hrej : url_accepted link = false) :
    link ∉ (run_as_gh_workflow lf o ctx).trace.downloads ∧
    link ∉ (process_submission lf fetch ev).downloads := by
  constructor
  · unfold run_as_gh_workflow
    rcases h : get_urls lf ctx with _ | _ | urls
    · simp
    · simp
    · have hsound := get_urls_sound h
      have hsub := ingest_loop_downloads_sub o urls
      simp only
      split
      · intro hmem
        have := hsound link (hsub link hmem)
        rw [hrej] at this
        exact Bool.false_ne_true this
      · split
        · intro hmem
          have := hsound link (hsub link hmem)
          rw [hrej] at this
          exact Bool.false_ne_true this
        · intro hmem
          have := hsound link (hsub link hmem)
          rw [hrej] at this
          exact Bool.false_ne_true this
  · unfold process_submission
    split
    · simp
    · split
      · simp
      · split
        · intro hmem
          have := submission_loop_downloads_ok fetch (lf ev.issue.body) link hmem
          have hacc : url_accepted link = true := by
            simp [url_accepted, gh_files_allowlisted this.1, this.2]
          rw [hrej] at hacc
          exact Bool.false_ne_true hacc
        · intro hmem
          have := submission_loop_downloads_ok fetch (lf ev.issue.body) link hmem
          have hacc : url_accepted link = true := by
            simp [url_accepted, gh_files_allowlisted this.1, this.2]
          rw [hrej] at hacc
          exact Bool.false_ne_true hacc
        · simp

/-- Witness for C1 at a concrete rejected URL and concrete context. -/
theorem C1_filter_runs_before_fetch_witness :
    url_accepted bad_url = false ∧
    bad_url ∉ (run_as_gh_workflow lf_mixed ok_oracle ctx_open).trace.downloads ∧
    bad_url ∉ (process_submission lf_mixed fetch_ok ev_open).downloads :=
  ⟨by decide,
   (C1_filter_runs_before_fetch lf_mixed ok_oracle fetch_ok ctx_open ev_open
     bad_url (by decide)).1,
   (C1_filter_runs_before_fetch lf_mixed ok_oracle fetch_ok ctx_open ev_open
     bad_url (by decide)).2⟩

/-- Claim C6 counterexample: for a locked source issue the workflow ingestion
path (get_urls inside run_as_gh_workflow) panics instead of succeeding as a
no-op, contradicting "does not return or raise an error". -/
theorem C6_counterexample :
    ctx_locked.issue_locked = true ∧
    get_urls lf_mixed ctx_locked = GetUrls.panic ∧
    (run_as_gh_workflow lf_mixed ok_oracle ctx_locked).outcome =
      RunOutcome.panic ∧
    RunOutcome.panic ≠ RunOutcome.ok := by decide

/-- Claim C6 as amended: for a locked or non-open source issue,
process_submission is a no-op that succeeds (no downloads, no comment, Ok),
while the run_as_gh_workflow ingestion path downloads and stores nothing but
terminates in a panic rather than succeeding. -/
theorem C6_locked_or_closed_behaviour (lf : String → List String)
    (fetch : String → Except String Unit) (o : IngestOracle)
    (ev : IssueEvent) (ctx : WorkflowContext)
    (hev : ev.issue.state ≠ IssueState.openState ∨ ev.issue.locked = true)
    (hctx : ctx.issue_locked = true ∨ ctx.issue_state ≠ "open") :
    process_submission lf fetch ev = ⟨[], false, .ok ()⟩ ∧
    run_as_gh_workflow lf o ctx = ⟨⟨[], [], [], [], none⟩, none, .panic⟩ := by
  constructor
  · unfold process_submission
    by_cases hst : ev.issue.state = IssueState.openState
    · have hne : (ev.issue.state != IssueState.openState) = false := by
        simp [hst]
      rcases hev with h | h
      · exact absurd hst h
      · simp [hne, h]
    · have hne : (ev.issue.state != IssueState.openState) = true := by
        simp [hst]
      simp [hne]
  · have hcond : (ctx.issue_locked || ctx.issue_state != "open") = true := by
      rcases hctx with h | h
      · simp [h]
      · simp [h]
    unfold run_as_gh_workflow get_urls
    rw [hcond]
    rfl

/-- Witness for the amended C6 at a concrete locked issue and context. -/
theorem C6_locked_or_closed_behaviour_witness :
    process_submission lf_mixed fetch_ok ev_locked = ⟨[], false, .ok ()⟩ ∧
    run_as_gh_workflow lf_mixed ok_oracle ctx_locked =
      ⟨⟨[], [], [], [], none⟩, none, .panic⟩ :=
  C6_locked_or_closed_behaviour lf_mixed fetch_ok ok_oracle ev_locked
    ctx_locked (Or.inr rfl) (Or.inl rfl)

/-- Claim C7 counterexample: with one allow-listed and one rejected URL in
the body and a download that validates, exactly one file is downloaded and
validated, but no comment at all is posted — in particular no comment
containing the rejected URL — because allow-list rejections are only logged,
never added to the aggregated error report. -/
theorem C7_counterexample :
    (run_as_gh_workflow lf_mixed ok_oracle ctx_open).trace.downloads =
      [good_url] ∧
    (run_as_gh_workflow lf_mixed ok_oracle ctx_open).trace.validations =
      [good_url] ∧
    (run_as_gh_workflow lf_mixed ok_oracle ctx_open).comment = none ∧
    (run_as_gh_workflow lf_mixed ok_oracle ctx_open).outcome =
      RunOutcome.ok := by decide

/-- Claim C7 as amended: for a body with exactly one allow-listed .json.gz
URL and one non-allow-listed URL, whose download, validation and storage
succeed, exactly that one file is downloaded and validated and no comment is
posted (rejected URLs appear in no comment; a comment only aggregates
validation failures). -/
theorem C7_one_accepted_one_rejected (lf : String → List String)
    (o : IngestOracle) (ctx : WorkflowContext) (body u1 u2 p : String)
    (hlock : ctx.issue_locked = false) (hstate : ctx.issue_state = "open")
    (hbody : get_body ctx = some (some body)) (hlinks : lf body = [u1, u2])
    (hacc1 : url_accepted u1 = true) (hacc2 : url_accepted u2 = false)
    (hf : o.fetch u1 = .ok p) (hv : o.validate u1 = .ok ())
    (hs : o.store u1 = .ok ()) :
    run_as_gh_workflow lf o ctx = ⟨⟨[u1], [u1], [u1], [], none⟩, none, .ok⟩ := by
  have hcond : (ctx.issue_locked || ctx.issue_state != "open") = false := by
    simp [hlock, hstate]
  have hfilter : List.filter url_accepted [u1, u2] = [u1] := by
    simp [List.filter, hacc1, hacc2]
  unfold run_as_gh_workflow get_urls
  rw [hcond, hbody]
  simp only [Bool.false_eq_true, if_false]
  rw [hlinks, hfilter]
  unfold ingest_loop
  rw [hf, hv, hs]
  rfl

/-- Witness for the amended C7 at the concrete mixed-URL context. -/
theorem C7_one_accepted_one_rejected_witness :
    run_as_gh_workflow lf_mixed ok_oracle ctx_open =
      ⟨⟨[good_url], [good_url], [good_url], [], none⟩, none, .ok⟩ :=
  C7_one_accepted_one_rejected lf_mixed ok_oracle ctx_open "BODY" good_url
    bad_url "stored" rfl rfl rfl (by decide) (by decide) (by decide) rfl rfl
    rfl

/-- Claim C8 counterexample: with two surviving URLs, a network failure while
downloading the first aborts the whole batch — the second URL is never
downloaded — contradicting "the remaining URLs of the same event are still
processed and the batch is not aborted". -/
theorem C8_counterexample :
    (run_as_gh_workflow lf_twogood fail_fetch_oracle ctx_open).trace.downloads
      = [good_url] ∧
    good_url2 ∉
      (run_as_gh_workflow lf_twogood fail_fetch_oracle ctx_open).trace.downloads ∧
    (run_as_gh_workflow lf_twogood fail_fetch_oracle ctx_open).trace.aborted =
      some "connection reset" ∧
    (run_as_gh_workflow lf_twogood fail_fetch_oracle ctx_open).outcome =
      RunOutcome.err := by decide

/-- Claim C8 as amended: a download or storage failure on one URL aborts the
whole batch (the error propagates and the remaining URLs are not processed);
only a validation failure is fatal to just that item, with the remaining URLs
still processed. -/
theorem C8_failure_scoping (o : IngestOracle) (u1 : String)
    (rest : List String) :
    (∀ e, o.fetch u1 = .error e →
      ingest_loop o (u1 :: rest) = ⟨[u1], [], [], [], some e⟩) ∧
    (∀ p e, o.fetch u1 = .ok p → o.validate u1 = .error e →
      ingest_loop o (u1 :: rest) =
        ⟨u1 :: (ingest_loop o rest).downloads,
         u1 :: (ingest_loop o rest).validations,
         (ingest_loop o rest).stored,
         ("File " ++ u1 ++ " failed validation: \n\n" ++ e) ::
           (ingest_loop o rest).errors,
         (ingest_loop o rest).aborted⟩) ∧
    (∀ p e, o.fetch u1 = .ok p → o.validate u1 = .ok () →
      o.store u1 = .error e →
      ingest_loop o (u1 :: rest) = ⟨[u1], [u1], [], [], some e⟩) := by
  refine ⟨?_, ?_, ?_⟩
  · intro e he
    unfold ingest_loop
    rw [he]
  · intro p e hp he
    conv_lhs => rw [ingest_loop]
    rw [hp, he]
  · intro p e hp hv he
    unfold ingest_loop
    rw [hp, hv, he]

/-- Witness for the amended C8: a failing download aborts the batch before
the second URL, while a failing validation lets the second URL through. -/
theorem C8_failure_scoping_witness :
    ingest_loop fail_fetch_oracle [good_url, good_url2] =
      ⟨[good_url], [], [], [], some "connection reset"⟩ ∧
    ingest_loop fail_validate_oracle [good_url, good_url2] =
      ⟨[good_url, good_url2], [good_url, good_url2], [good_url2],
       ["File https://github.com/a.json.gz failed validation: \n\nbad file"],
       none⟩ :=
  ⟨(C8_failure_scoping fail_fetch_oracle good_url [good_url2]).1
      "connection reset" (by decide),
   by
     have h := (C8_failure_scoping fail_validate_oracle good_url
       [good_url2]).2.1 "stored" "bad file" (by decide) (by decide)
     rw [h]
     decide⟩

set_option maxRecDepth 20000 in
/-- Claim C2 counterexample: the aggregation map's entries iterated in two
different orders (both legitimate iteration sequences of the same map, one of
which is the sorted one) yield different output bytes, so the consolidated
file is neither emitted in sorted model-name order nor byte-identical
regardless of the parallel processing order. -/
theorem C2_counterexample :
    entries_rev.Perm entries_sorted ∧
    aggregator_output env_none fe_x read_ab "D" "c0" entries_rev ≠
      aggregator_output env_none fe_x read_ab "D" "c0" entries_sorted := by
  constructor
  · decide
  · decide

/-- Claim C2 as amended: the consolidated file is the header followed by the
selected snippet's contents exactly once per model, in the aggregation map's
iteration order (the code does not sort the model names), so the output is a
deterministic function of that iteration sequence, the overrides, the snippet
store and the date — but not independent of the iteration order. -/
theorem C2_emission_shape (env : String → EnvVal) (fe : String → Bool)
    (read_file : String → String) (date commit body : String)
    (entries : List (String × List MergeAlt))
    (hbody : emit_models env fe read_file date entries = some body) :
    aggregator_output env fe read_file date commit entries =
      some (hwdb_file_header date commit ++ body) ∧
    body = concat_all (entries.map (fun e =>
      read_file ("hwdb-inputs/" ++ (select_best env fe date e.1 e.2).getD "")
        ++ "\n")) := by
  constructor
  · unfold aggregator_output
    rw [hbody]
  · induction entries generalizing body with
    | nil =>
      unfold emit_models at hbody
      injection hbody with hbody
      subst hbody
      rfl
    | cons e rest ih =>
      obtain ⟨m, alts⟩ := e
      unfold emit_models at hbody
      cases hsel : select_best env fe date m alts with
      | none => rw [hsel] at hbody; exact absurd hbody (by simp)
      | some best =>
        rw [hsel] at hbody
        cases hrest : emit_models env fe read_file date rest with
        | none => rw [hrest] at hbody; exact absurd hbody (by simp)
        | some s =>
          rw [hrest] at hbody
          injection hbody with hbody
          subst hbody
          simp only [List.map_cons, concat_all, hsel, Option.getD_some]
          rw [ih s hrest]

/-- Witness for the amended C2 at the sorted concrete entries. -/
theorem C2_emission_shape_witness :
    emit_models env_none fe_x read_ab "D" entries_sorted = some "AAA\nBBB\n" ∧
    aggregator_output env_none fe_x read_ab "D" "c0" entries_sorted =
      some (hwdb_file_header "D" "c0" ++ "AAA\nBBB\n") ∧
    "AAA\nBBB\n" = concat_all (entries_sorted.map (fun e =>
      read_ab ("hwdb-inputs/" ++ (select_best env_none fe_x "D" e.1 e.2).getD "")
        ++ "\n")) :=
  ⟨by decide,
   (C2_emission_shape env_none fe_x read_ab "D" "c0" "AAA\nBBB\n"
     entries_sorted (by decide)).1,
   (C2_emission_shape env_none fe_x read_ab "D" "c0" "AAA\nBBB\n"
     entries_sorted (by decide)).2⟩

/-- Claim C3: once try_fwmerge has reached its decision (the revision maximum
exists and the two external invocations succeeded), the firmware-specific
candidate is kept as the bucket's BenchFWMerge iff its data-point count is at
least MINIMUM_DATA_POINTS and differs from the bucket-wide count by at least
MINIMUM_DIFFERENT_RESULTS; otherwise — in particular when the counts are
equal, or when the candidate has fewer than 4 points regardless of
divergence — the candidate's output file is deleted and none is returned. -/
theorem C3_fwmerge_keep_iff (o : MergeOracle) (common : Nat)
    (version model maxfw out : String) (results : List String) (dp : Nat)
    (hmax : maxByLast strLe (results.map o.fwrev_of) = some maxfw)
    (hmerge : o.run_merge (merged_file version model (some maxfw))
      (results.filter (fun r => o.fwrev_of r == maxfw)) = .ok out)
    (hdp : o.get_data_points (merged_file version model (some maxfw)) =
      .ok dp) :
    (try_fwmerge o common version model results =
        .ok (some ⟨maxfw, merged_file version model (some maxfw), dp⟩) ↔
      dp ≥ MINIMUM_DATA_POINTS ∧
        dp_divergence dp common ≥ MINIMUM_DIFFERENT_RESULTS) ∧
    ((dp = common ∨ dp < MINIMUM_DATA_POINTS) →
      try_fwmerge o common version model results = .ok none ∧
      fwmerge_decide common maxfw (merged_file version model (some maxfw)) dp
        = .deleteAndNone (merged_file version model (some maxfw))) := by
  have hstep : try_fwmerge o common version model results =
      match fwmerge_decide common maxfw (merged_file version model (some maxfw))
        dp with
      | .keep m => .ok (some m)
      | .deleteAndNone _ => .ok none := by
    unfold try_fwmerge
    rw [hmax]
    simp only [hmerge, hdp]
  have hkeep : dp_divergence dp common ≥ MINIMUM_DIFFERENT_RESULTS →
      dp ≥ MINIMUM_DATA_POINTS →
      fwmerge_decide common maxfw (merged_file version model (some maxfw)) dp
        = .keep ⟨maxfw, merged_file version model (some maxfw), dp⟩ := by
    intro hdiv h4
    unfold fwmerge_decide
    simp [hdiv, h4]
  have hdel : ¬(dp_divergence dp common ≥ MINIMUM_DIFFERENT_RESULTS ∧
      dp ≥ MINIMUM_DATA_POINTS) →
      fwmerge_decide common maxfw (merged_file version model (some maxfw)) dp
        = .deleteAndNone (merged_file version model (some maxfw)) := by
    intro hnot
    unfold fwmerge_decide
    rcases Decidable.not_and_iff_or_not.mp hnot with h | h <;> simp [h]
  constructor
  · rw [hstep]
    by_cases hcond : dp_divergence dp common ≥ MINIMUM_DIFFERENT_RESULTS ∧
        dp ≥ MINIMUM_DATA_POINTS
    · rw [hkeep hcond.1 hcond.2]
      exact ⟨fun _ => ⟨hcond.2, hcond.1⟩, fun _ => rfl⟩
    · rw [hdel hcond]
      constructor
      · intro hcontr
        exact absurd hcontr (by simp)
      · intro hcontr
        exact absurd ⟨hcontr.2, hcontr.1⟩ hcond
  · intro hdisc
    have hnot : ¬(dp_divergence dp common ≥ MINIMUM_DIFFERENT_RESULTS ∧
        dp ≥ MINIMUM_DATA_POINTS) := by
      rcases hdisc with h | h
      · intro hcontr
        have : dp_divergence dp common = 0 := by
          simp [dp_divergence, h]
        rw [this] at hcontr
        exact absurd hcontr.1 (by simp [MINIMUM_DIFFERENT_RESULTS])
      · intro hcontr
        exact absurd hcontr.2 (Nat.not_le.mpr h)
    refine ⟨?_, hdel hnot⟩
    rw [hstep, hdel hnot]

/-- Witness for C3: one result file with one firmware revision, bucket-wide
count 4 and firmware-specific count 5: the candidate is kept. -/
theorem C3_fwmerge_keep_iff_witness :
    try_fwmerge merge_oracle5 4 "2.2" "m" ["r1"] =
      .ok (some ⟨"FW1", merged_file "2.2" "m" (some "FW1"), 5⟩) :=
  ((C3_fwmerge_keep_iff merge_oracle5 4 "2.2" "m" "FW1" "" ["r1"] 5
    (by decide) (by decide) (by decide)).1).mpr (by decide)

/-- Claim C4 counterexample: for model name A.B (a dot is non-alphanumeric
but not a dash), the code consults OVERRIDE_BEST_A.B whereas the claimed key
with non-alphanumeric characters replaced is OVERRIDE_BEST_A_B; with the
claimed key set to an existing snippet x.hwdb, the code still applies the
data-point policy and selects the rebuilt descriptive filename instead of
x.hwdb. -/
theorem C4_counterexample :
    override_var "A.B" = "OVERRIDE_BEST_A.B" ∧
    override_var_claim "A.B" = "OVERRIDE_BEST_A_B" ∧
    override_var "A.B" ≠ override_var_claim "A.B" ∧
    env_claimkey (override_var_claim "A.B") = EnvVal.ok "x.hwdb" ∧
    fe_x "x.hwdb" = true ∧
    select_best env_claimkey fe_x "D" "A.B" alts_ab =
      some "iocost-tune-2.2-A.B-D.hwdb" ∧
    (some "iocost-tune-2.2-A.B-D.hwdb" : Option String) ≠
      some "x.hwdb" := by decide

/-- Claim C4 as amended: the override variable is keyed by the model name
with dashes replaced by underscores; if it is set and names a snippet file
that exists on disk, that snippet is selected unconditionally; if it is set
and the file does not exist, selection panics with no fallback; if it is not
set, the alternative with the greatest data-point count is selected (its
hwdb filename rebuilt from version, model and date). -/
theorem C4_selection_policy (env : String → EnvVal) (fe : String → Bool)
    (date model f : String) (alts : List MergeAlt) :
    (env (override_var model) = .ok f → fe f = true →
      select_best env fe date model alts = some f) ∧
    (env (override_var model) = .ok f → fe f = false →
      select_best env fe date model alts = none) ∧
    (env (override_var model) = .notPresent → ∀ b : MergeAlt,
      maxByLast (fun a c => a.data_points ≤ c.data_points) alts = some b →
      select_best env fe date model alts =
        some (build_descriptive_filename b date "hwdb") ∧
      ∀ x ∈ alts, x.data_points ≤ b.data_points) := by
  refine ⟨?_, ?_, ?_⟩
  · intro he hf
    unfold select_best
    rw [he]
    simp [hf]
  · intro he hf
    unfold select_best
    rw [he]
    simp [hf]
  · intro he b hmax
    refine ⟨?_, maxByLast_data_points_bound alts b hmax⟩
    unfold select_best
    rw [he]
    simp [hmax]

/-- Witness for the amended C4: an existing override for model A-B is taken
unconditionally, and without an override the 25-point alternative out of
data points 10, 25, 3 is selected for model Foo_Bar. -/
theorem C4_selection_policy_witness :
    env_claimkey (override_var "A-B") = EnvVal.ok "x.hwdb" ∧
    fe_x "x.hwdb" = true ∧
    select_best env_claimkey fe_x "D" "A-B" alts_ab = some "x.hwdb" ∧
    env_none (override_var "Foo_Bar") = EnvVal.notPresent ∧
    select_best env_none fe_x "D" "Foo_Bar" alts_scenario =
      some "iocost-tune-2.3-Foo_Bar-D.hwdb" :=
  ⟨by decide, by decide,
   (C4_selection_policy env_claimkey fe_x "D" "A-B" "x.hwdb" alts_ab).1
     (by decide) (by decide),
   by decide,
   ((C4_selection_policy env_none fe_x "D" "Foo_Bar" "x" alts_scenario).2.2
     (by decide) ⟨"2.3", "Foo_Bar", 25⟩ (by decide)).1⟩

/-- Claim C5: storing two byte-identical submissions (possibly from distinct
URLs and issues) yields the same content-addressed stored file name and the
same final database path; both are functions of the raw bytes and the
extracted metadata alone. -/
theorem C5_content_store_idempotent (digest : List Nat → String)
    (extract : List Nat → Option ParsedMeta) (sp : String → Option Semver)
    (issue1 issue2 : Nat) (url1 url2 database_path : String)
    (bytes : List Nat) (r1 r2 : BenchResult)
    (h1 : new_from_issue digest extract sp issue1 url1 database_path bytes =
      some r1)
    (h2 : new_from_issue digest extract sp issue2 url2 database_path bytes =
      some r2) :
    r1.result_file = r2.result_file ∧
    r1.result_file = download_path digest bytes ∧
    r1.dir = r2.dir ∧ db_file r1 = db_file r2 := by
  unfold new_from_issue at h1 h2
  cases hext : extract bytes with
  | none =>
    simp only [hext] at h1
    exact absurd h1 (by simp)
  | some meta =>
    simp only [hext] at h1 h2
    cases hsp : sp meta.full_version with
    | none =>
      simp only [hsp] at h1
      exact absurd h1 (by simp)
    | some v =>
      simp only [hsp, Option.some.injEq] at h1 h2
      subst h1
      subst h2
      exact ⟨rfl, rfl, rfl, rfl⟩

/-- Witness for C5: the same bytes submitted under two different issues and
URLs store to the same file name and database path. -/
theorem C5_content_store_idempotent_witness :
    new_from_issue digest0 extract0 sp0 1 "u1" "database" [1, 2, 3] =
      some ⟨some 1, some "u1", "Model_X", "database/2.2/Model_X",
        "result-6.json.gz", "2.2"⟩ ∧
    new_from_issue digest0 extract0 sp0 2 "u2" "database" [1, 2, 3] =
      some ⟨some 2, some "u2", "Model_X", "database/2.2/Model_X",
        "result-6.json.gz", "2.2"⟩ ∧
    (⟨some 1, some "u1", "Model_X", "database/2.2/Model_X",
      "result-6.json.gz", "2.2"⟩ : BenchResult).result_file =
      (⟨some 2, some "u2", "Model_X", "database/2.2/Model_X",
        "result-6.json.gz", "2.2"⟩ : BenchResult).result_file ∧
    db_file ⟨some 1, some "u1", "Model_X", "database/2.2/Model_X",
      "result-6.json.gz", "2.2"⟩ =
      db_file ⟨some 2, some "u2", "Model_X", "database/2.2/Model_X",
        "result-6.json.gz", "2.2"⟩ :=
  ⟨by decide, by decide,
   (C5_content_store_idempotent digest0 extract0 sp0 1 2 "u1" "u2" "database"
     [1, 2, 3] _ _ (by decide) (by decide)).1,
   (C5_content_store_idempotent digest0 extract0 sp0 1 2 "u1" "u2" "database"
     [1, 2, 3] _ _ (by decide) (by decide)).2.2.2⟩

/-- Claim C9 counterexample: engine version 2.2.2-rc1 is below the 2.2.3
minimum in semver precedence, yet the "<2.2.3" requirement does not match
pre-release versions, so format_high_level invokes the engine and returns its
output rather than the empty string. -/
theorem C9_counterexample :
    semver_below ⟨2, 2, 2, ["rc1"]⟩ 2 2 3 = true ∧
    format_high_level ⟨2, 2, 2, ["rc1"]⟩ (.ok ()) (.ok "SUMMARY") =
      ⟨true, true, some "SUMMARY"⟩ ∧
    (⟨true, true, some "SUMMARY"⟩ : HLTrace) ≠ ⟨false, false, some ""⟩ := by
  decide

/-- Claim C9 as amended: for every engine whose reported version is below
2.2.3 and carries no pre-release component, the high-level summary is the
empty string with no engine invocation (the gate is evaluated strictly before
any summary-generating invocation and no error is returned); a version with a
pre-release component never matches the gate, so the summary is generated by
invoking the engine even when the version precedes 2.2.3. -/
theorem C9_version_gate (v : Semver) (mr : Except String Unit)
    (fr : Except String String) (s : String) :
    (v.pre = [] → semver_below v 2 2 3 = true →
      format_high_level v mr fr = ⟨false, false, some ""⟩) ∧
    (v.pre ≠ [] → format_high_level v (.ok ()) (.ok s) =
      ⟨true, true, some s⟩) := by
  constructor
  · intro hpre hb
    have hm : versionreq_lt_matches 2 2 3 v = true := by
      unfold versionreq_lt_matches
      unfold semver_below at hb
      rw [hpre] at hb ⊢
      simpa using hb
    unfold format_high_level
    rw [hm]
    rfl
  · intro hpre
    have hm : versionreq_lt_matches 2 2 3 v = false := by
      unfold versionreq_lt_matches
      have : v.pre.isEmpty = false := by
        simpa [List.isEmpty_iff] using hpre
      simp [this]
    unfold format_high_level
    rw [hm]
    rfl

/-- Witness for the amended C9: version 2.2.2 yields the empty summary
without engine invocation; pre-release 2.2.2-rc1 triggers generation. -/
theorem C9_version_gate_witness :
    format_high_level ⟨2, 2, 2, []⟩ (.ok ()) (.ok "SUMMARY") =
      ⟨false, false, some ""⟩ ∧
    format_high_level ⟨2, 2, 2, ["rc1"]⟩ (.ok ()) (.ok "SUMMARY") =
      ⟨true, true, some "SUMMARY"⟩ :=
  ⟨(C9_version_gate ⟨2, 2, 2, []⟩ (.ok ()) (.ok "SUMMARY") "SUMMARY").1
      rfl (by decide),
   (C9_version_gate ⟨2, 2, 2, ["rc1"]⟩ (.ok ()) (.ok "SUMMARY") "SUMMARY").2
      (by decide)⟩

/-- Claim C10: for a bucket directory containing zero result files, the
firmware-refinement step takes the maximum firmware revision of an empty set
and panics, so (whenever the external merge and data-point readback succeed)
the merge operation panics rather than returning an error value, and it never
returns a successful result; callers must guarantee a non-empty bucket. -/
theorem C10_empty_bucket_panics (o : MergeOracle) (common : Nat)
    (version model : String) :
    try_fwmerge o common version model [] = .panic ∧
    (∀ s n, o.run_merge (merged_file version model none) [] = .ok s →
      o.get_data_points (merged_file version model none) = .ok n →
      bench_merge o version model [] = .panic) ∧
    (∀ res, bench_merge o version model [] ≠ .ok res) := by
  refine ⟨rfl, ?_, ?_⟩
  · intro s n hm hdp
    unfold bench_merge
    simp only [hm, hdp]
    rfl
  · intro res
    unfold bench_merge
    cases hm : o.run_merge (merged_file version model none) [] with
    | error e =>
      simp only [hm]
      simp
    | ok s =>
      cases hdp : o.get_data_points (merged_file version model none) with
      | error e =>
        simp only [hm, hdp]
        simp
      | ok n =>
        have hfw : try_fwmerge o n version model [] = .panic := rfl
        simp only [hm, hdp, hfw]
        simp

/-- Witness for C10 at a concrete oracle on which the external merge and
readback succeed. -/
theorem C10_empty_bucket_panics_witness :
    try_fwmerge merge_oracle0 0 "2.2" "m" [] = .panic ∧
    bench_merge merge_oracle0 "2.2" "m" [] = .panic :=
  ⟨(C10_empty_bucket_panics merge_oracle0 0 "2.2" "m").1,
   (C10_empty_bucket_panics merge_oracle0 0 "2.2" "m").2.1 "" 0 rfl rfl⟩

end IocostCI
